import Mathlib

/-!
Shallow embedding of the BBB flagship button driver
(src/drivers/button/bbb_flagship_button.c and
src/drivers/button/bbb_flagship_button_chardev.c).

Machine integers are modelled as `Nat` (all counters are 64-bit and only
incremented; no overflow is reachable in any claim).  C strings are modelled
at the byte level: a buffer is a `List Nat` of raw bytes, a C string argument
is represented by its null-free content list.  Time (`ktime_get_ns`, jiffies)
is an abstract `Nat` parameter passed to each entry point that reads a clock.
-/

namespace BbbButton

/-- `sizeof(btn->chardev.buffer)` and `sizeof(local_buf)` and `sizeof(msg)`:
all three fixed buffers in the driver are 256 bytes. -/
def BUF_SIZE : Nat := 256

/-- Bytes of a Lean string literal (ASCII), used to model the C string
literals passed to `snprintf`. -/
def strBytes (s : String) : List Nat :=
  s.data.map Char.toNat

/-- ASCII decimal digits of a natural number, modelling `%lld` formatting of
the (non-negative) counter and timestamp values. -/
def natDecimalDigits (n : Nat) : List Nat :=
  (Nat.toDigits 10 n).map Char.toNat

/-- The formatted event text built by `snprintf(msg, sizeof(msg),
"button %s: count=%lld time=%lld\n", state ? "released" : "pressed", ...)`
in `bbb_btn_debounce_work` (before `snprintf`'s truncation to the buffer). -/
def formatEventMsg (state : Bool) (count time : Nat) : List Nat :=
  strBytes "button " ++
  strBytes (if state then "released" else "pressed") ++
  strBytes ": count=" ++ natDecimalDigits count ++
  strBytes " time=" ++ natDecimalDigits time ++ strBytes "\n"

/-- The first `n` bytes written by `strncpy(dst, src, n)` when `src` is a C
string with null-free content `src`: the content truncated to `n` bytes,
zero-padded to exactly `n` bytes when the content is shorter. -/
def strncpyFill (src : List Nat) (n : Nat) : List Nat :=
  src.take n ++ List.replicate (n - src.length) 0

/-- `strlen` on a raw byte buffer: number of bytes before the first 0. -/
def cstrLen (buf : List Nat) : Nat :=
  (buf.takeWhile (· != 0)).length

/-- The C-string content of a raw byte buffer (bytes before the first 0). -/
def cstrContent (buf : List Nat) : List Nat :=
  buf.takeWhile (· != 0)

/-- The `chardev` sub-struct of `struct bbb_btn` (bbb_flagship_button_chardev.h):
the single-slot event mailbox.  `buffer` holds the raw 256 bytes of
`char buffer[256]`; `has_event` is the unread flag.  The `dev_t`/`cdev`/
`class`/`device` handles and the wait-queue head carry no mailbox state. -/
structure ChardevState where
  buffer : List Nat
  has_event : Bool
  deriving DecidableEq, Repr

/-- Mailbox state at registration: the enclosing `struct bbb_btn` is
`devm_kzalloc`ed (all bytes 0) and `bbb_chardev_register` sets
`has_event = false`. -/
def initChardev : ChardevState :=
  ⟨List.replicate BUF_SIZE 0, false⟩

/-- `bbb_chardev_push_event` (bbb_flagship_button_chardev.c:227-238):
under the mailbox lock, `strncpy` the message into the buffer bounded by
`sizeof(buffer) - 1`, force a null terminator in the last byte, set
`has_event = true`; then wake any waiting readers. -/
def bbb_chardev_push_event (msg : List Nat) (st : ChardevState) : ChardevState :=
  { st with
      buffer := strncpyFill msg (BUF_SIZE - 1) ++ [0],
      has_event := true }

/-- The `len` computed at bbb_flagship_button_chardev.c:97-99:
`len = strlen(buffer); if (len >= sizeof(local_buf)) len = sizeof(local_buf) - 1`. -/
def readLen (st : ChardevState) : Nat :=
  let len := cstrLen st.buffer
  if BUF_SIZE ≤ len then BUF_SIZE - 1 else len

/-- The reader's `local_buf` after bbb_flagship_button_chardev.c:101-102:
`memcpy(local_buf, buffer, len); local_buf[len] = 0`. -/
def readLocalBuf (st : ChardevState) : List Nat :=
  st.buffer.take (readLen st) ++ [0]

/-- Result of `bbb_btn_chardev_read`: the negative errnos, or success
carrying the bytes delivered by `copy_to_user` and the returned length. -/
inductive ReadResult where
  | restartSys
  | again
  | fault
  | ok (delivered : List Nat) (ret : Nat)
  deriving DecidableEq, Repr

/-- `bbb_btn_chardev_read` (bbb_flagship_button_chardev.c:77-118).
`interrupted` is the outcome of `wait_event_interruptible` (true when a
signal cut the wait short); `copyFails` is the outcome of `copy_to_user`.
Faithful to the source order: the mailbox flag is cleared and the lock
dropped *before* `count` truncation and the user copy. -/
def bbb_btn_chardev_read (interrupted copyFails : Bool) (count : Nat)
    (st : ChardevState) : ReadResult × ChardevState :=
  if interrupted then (.restartSys, st)
  else if !st.has_event then (.again, st)
  else
    let len := readLen st
    let local_buf := readLocalBuf st
    let st' := { st with has_event := false }
    let len2 := if count < len then count else len
    if copyFails then (.fault, st')
    else (.ok (local_buf.take len2) len2, st')

/-- A consumer sitting inside `wait_event_interruptible(wait, has_event)`:
still asleep, or returned (0 on condition true, -ERESTARTSYS on signal). -/
inductive WaiterState where
  | blocked
  | returnedOk
  | returnedRestart
  deriving DecidableEq, Repr

/-- One wake-up delivered to a waiter, following the Linux contract of
`wait_event_interruptible` (external to this repository): the woken task
returns -ERESTARTSYS if a signal is pending, returns 0 if the awaited
condition now holds, and otherwise re-checks the condition and goes back
to sleep. -/
def wakeWaiter (cond signalPending : Bool) (w : WaiterState) : WaiterState :=
  match w with
  | .blocked =>
      if signalPending then .returnedRestart
      else if cond then .returnedOk
      else .blocked
  | w => w

/-- The effect of `bbb_chardev_unregister` (bbb_flagship_button_chardev.c:
218-225) on a consumer blocked in the read wait: its first statement is
`wake_up_interruptible(&btn->chardev.wait)`; the remaining statements tear
down the device objects and do not touch the waiter or the mailbox flag. -/
def bbb_chardev_unregister (signalPending : Bool) (st : ChardevState)
    (w : WaiterState) : WaiterState :=
  wakeWaiter st.has_event signalPending w

/-- One call into the generic input bus from the settle pass. -/
inductive InputCall where
  | reportKey (pressed : Bool)
  | sync
  deriving DecidableEq, Repr

/-- `struct bbb_btn` (bbb_flagship_button_chardev.h): the four atomic64
counters, the debounce configuration, the debounce state machine fields,
the armed delayed-work entries (`pending` lists the deadlines of queued
`debounce_work` items; the kernel workqueue holds at most one entry for a
given work item), the mailbox, and the trace of input-bus calls emitted. -/
structure BtnState where
  press_count : Nat
  last_event_ns : Nat
  total_irqs : Nat
  work_executions : Nat
  debounce_ms : Nat
  last_state : Bool
  work_pending : Bool
  pending : List Nat
  chardev : ChardevState
  inputTrace : List InputCall
  deriving DecidableEq, Repr

/-- State established by `bbb_btn_probe` (bbb_flagship_button.c:206-290):
counters zeroed, `debounce_ms` from the device tree (default 20),
`last_state` from an initial GPIO read, `work_pending = false`, no work
queued, mailbox initialized by `bbb_chardev_register`. -/
def bbb_btn_probe (initLevel : Bool) (debounce_ms : Nat) : BtnState :=
  { press_count := 0
    last_event_ns := 0
    total_irqs := 0
    work_executions := 0
    debounce_ms := debounce_ms
    last_state := initLevel
    work_pending := false
    pending := []
    chardev := initChardev
    inputTrace := [] }

/-- `cancel_delayed_work(&b->debounce_work)`: removes the queued work item
(if any) without waiting for a running instance. -/
def cancel_delayed_work (b : BtnState) : BtnState :=
  { b with pending := [] }

/-- `schedule_delayed_work(&b->debounce_work, deadline)`: queues the work
item to run at `deadline`. -/
def schedule_delayed_work (deadline : Nat) (b : BtnState) : BtnState :=
  { b with pending := b.pending ++ [deadline] }

/-- `bbb_btn_irq` (bbb_flagship_button.c:100-124): count the IRQ, then under
the spinlock cancel any pending debounce work, reschedule it one quiet
interval (`debounce_ms`) from now, and mark work pending. -/
def bbb_btn_irq (now : Nat) (b : BtnState) : BtnState :=
  let b := { b with total_irqs := b.total_irqs + 1 }
  let b := cancel_delayed_work b
  let b := schedule_delayed_work (now + b.debounce_ms) b
  { b with work_pending := true }

/-- `bbb_btn_debounce_work` (bbb_flagship_button.c:135-184).  `state` is the
level returned by `gpiod_get_value_cansleep`; `now` is the `ktime_get_ns()`
read inside the state-changed branch, `nowMsg` the separate `ktime_get_ns()`
read by the final `snprintf`.  Faithful to the source: `work_executions` is
incremented once unconditionally and once more in the changed branch, and
`bbb_chardev_push_event` is called unconditionally at the end, outside the
`state != last_state` guard. -/
def bbb_btn_debounce_work (state : Bool) (now nowMsg : Nat) (b : BtnState) :
    BtnState :=
  let b := { b with work_executions := b.work_executions + 1 }
  let b :=
    if state ≠ b.last_state then
      { b with
          last_state := state,
          press_count := b.press_count + 1,
          last_event_ns := now,
          work_executions := b.work_executions + 1,
          inputTrace := b.inputTrace ++ [.reportKey (!state), .sync] }
    else b
  let b := { b with work_pending := false }
  let msg := (formatEventMsg state b.press_count nowMsg).take (BUF_SIZE - 1)
  { b with chardev := bbb_chardev_push_event msg b.chardev }

/-- `bbb_btn_chardev_read` viewed on the whole driver state: the read only
touches `btn->chardev` fields, never the counters or line state. -/
def bbb_btn_chardev_read_btn (interrupted copyFails : Bool) (count : Nat)
    (b : BtnState) : ReadResult × BtnState :=
  let r := bbb_btn_chardev_read interrupted copyFails count b.chardev
  (r.1, { b with chardev := r.2 })

/-- `bbb_chardev_push_event` viewed on the whole driver state: the publish
only touches `btn->chardev` fields. -/
def bbb_chardev_push_event_btn (msg : List Nat) (b : BtnState) : BtnState :=
  { b with chardev := bbb_chardev_push_event msg b.chardev }

/-- A run of settle passes: each entry supplies the GPIO level read and the
two clock readings of one execution of `bbb_btn_debounce_work`. -/
def runPasses (passes : List (Bool × Nat × Nat)) (b : BtnState) : BtnState :=
  match passes with
  | [] => b
  | (lvl, n1, n2) :: rest => runPasses rest (bbb_btn_debounce_work lvl n1 n2 b)

/-- Number of passes in a run that observe a level different from the level
accepted just before them (threading `last_state` through the run). -/
def countChanges (passes : List (Bool × Nat × Nat)) (last : Bool) : Nat :=
  match passes with
  | [] => 0
  | (lvl, _, _) :: rest =>
      (if lvl = last then 0 else 1) + countChanges rest lvl

/-- Well-formedness of the mailbox byte buffer: exactly the declared 256
bytes, with a null terminator somewhere inside the bound. -/
def bufferWF (buf : List Nat) : Prop :=
  buf.length = BUF_SIZE ∧ 0 ∈ buf


lemma takeWhile_append_all {α : Type} (p : α → Bool) (A B : List α)
    (h : ∀ a ∈ A, p a = true) :
    (A ++ B).takeWhile p = A ++ B.takeWhile p := by
  induction A with
  | nil => simp
  | cons a A ih =>
      simp only [List.cons_append, List.takeWhile_cons, h a (by simp)]
      simp only [if_true]
      rw [ih (fun x hx => h x (by simp [hx]))]

lemma push_buffer_eq (msg : List Nat) (st : ChardevState) :
    (bbb_chardev_push_event msg st).buffer
      = msg.take (BUF_SIZE - 1) ++
        List.replicate (BUF_SIZE - 1 - msg.length + 1) 0 := by
  simp only [bbb_chardev_push_event, strncpyFill, List.append_assoc,
    ← List.replicate_succ' (n := BUF_SIZE - 1 - msg.length)]

lemma cstrContent_push (msg : List Nat) (st : ChardevState)
    (h : ∀ b ∈ msg, b ≠ 0) :
    cstrContent (bbb_chardev_push_event msg st).buffer = msg.take (BUF_SIZE - 1) := by
  rw [cstrContent, push_buffer_eq]
  rw [takeWhile_append_all _ _ _
    (fun a ha => by
      have : a ∈ msg := List.take_subset _ _ ha
      simpa using h a this)]
  simp [List.takeWhile_replicate]

lemma cstrLen_push (msg : List Nat) (st : ChardevState)
    (h : ∀ b ∈ msg, b ≠ 0) :
    cstrLen (bbb_chardev_push_event msg st).buffer = min (BUF_SIZE - 1) msg.length := by
  have hc := cstrContent_push msg st h
  rw [cstrLen]
  rw [show (bbb_chardev_push_event msg st).buffer.takeWhile (· != 0)
        = cstrContent (bbb_chardev_push_event msg st).buffer from rfl, hc]
  simp [List.length_take]

lemma cstrLen_le_length (buf : List Nat) : cstrLen buf ≤ buf.length :=
  (List.takeWhile_prefix _).length_le

lemma readLen_le_length (st : ChardevState) : readLen st ≤ st.buffer.length := by
  have h := cstrLen_le_length st.buffer
  simp only [readLen]
  split <;> omega

lemma readLen_le_255 (st : ChardevState) : readLen st ≤ BUF_SIZE - 1 := by
  have h := cstrLen_le_length st.buffer
  simp only [readLen]
  split
  · omega
  · simp only [BUF_SIZE] at *
    omega

lemma readLen_push (msg : List Nat) (st : ChardevState) (h : ∀ b ∈ msg, b ≠ 0) :
    readLen (bbb_chardev_push_event msg st) = min (BUF_SIZE - 1) msg.length := by
  simp only [readLen, cstrLen_push msg st h]
  split
  · simp only [BUF_SIZE] at *
    omega
  · rfl

lemma if_lt_eq_min (a b : Nat) : (if a < b then a else b) = min a b := by
  rcases Nat.lt_or_ge a b with h | h
  · simp [h, Nat.min_eq_left (Nat.le_of_lt h)]
  · simp [Nat.not_lt.2 h, Nat.min_eq_right h]

lemma read_spec (cf : Bool) (count : Nat) (st : ChardevState) (h : st.has_event = true) :
    bbb_btn_chardev_read false cf count st
      = (if cf then .fault
         else .ok ((readLocalBuf st).take (min count (readLen st))) (min count (readLen st)),
         { st with has_event := false }) := by
  simp only [bbb_btn_chardev_read, h, Bool.not_true, if_lt_eq_min]
  cases cf <;> simp

lemma readLocalBuf_length (st : ChardevState) :
    (readLocalBuf st).length = readLen st + 1 := by
  have h := readLen_le_length st
  simp [readLocalBuf, List.length_take]
  omega

lemma readLocalBuf_take (st : ChardevState) (n : Nat) (hn : n ≤ readLen st) :
    (readLocalBuf st).take n = st.buffer.take n := by
  have h := readLen_le_length st
  rw [readLocalBuf, List.take_append_eq_append_take]
  have h1 : (st.buffer.take (readLen st)).length = readLen st := by
    simp [List.length_take]; omega
  rw [h1]
  have h2 : n - readLen st = 0 := by omega
  simp [h2, List.take_take, Nat.min_eq_left hn]

lemma read_buffer_unchanged (i c : Bool) (n : Nat) (st : ChardevState) :
    ((bbb_btn_chardev_read i c n st).2).buffer = st.buffer := by
  simp only [bbb_btn_chardev_read]
  cases i <;> cases c <;> cases h : st.has_event <;> simp [h]

lemma debounce_work_last_state (lvl : Bool) (n1 n2 : Nat) (b : BtnState) :
    (bbb_btn_debounce_work lvl n1 n2 b).last_state = lvl := by
  simp only [bbb_btn_debounce_work]
  by_cases h : lvl = b.last_state
  · simp [h]
  · simp [h]

lemma debounce_work_we (lvl : Bool) (n1 n2 : Nat) (b : BtnState) :
    (bbb_btn_debounce_work lvl n1 n2 b).work_executions
      = b.work_executions + (if lvl = b.last_state then 1 else 2) := by
  simp only [bbb_btn_debounce_work]
  by_cases h : lvl = b.last_state
  · simp [h]
  · simp [h]

lemma runPasses_we (passes : List (Bool × Nat × Nat)) (b : BtnState) :
    (runPasses passes b).work_executions
      = b.work_executions + passes.length + countChanges passes b.last_state := by
  induction passes generalizing b with
  | nil => simp [runPasses, countChanges]
  | cons p rest ih =>
      obtain ⟨lvl, n1, n2⟩ := p
      rw [runPasses, countChanges, ih, debounce_work_we, debounce_work_last_state]
      by_cases h : lvl = b.last_state <;> simp [h] <;> omega


def pushedHi : ChardevState := bbb_chardev_push_event (strBytes "hi") initChardev

/-- Claim C1 (code evaluated at the failing input): the claim says that a
settle pass whose read level equals `last_state` changes no counter besides
`work_executions` and publishes no event.  The counter part holds (here
`press_count` stays 0), but `bbb_btn_debounce_work` calls
`bbb_chardev_push_event` unconditionally, outside the `state != last_state`
guard: after an unchanged pass `has_event` is true and the mailbox holds a
freshly formatted message, contradicting the claim. -/
theorem C1_unchanged_pass_still_publishes :
    (bbb_btn_probe true 20).last_state = true ∧
    (bbb_btn_probe true 20).chardev.has_event = false ∧
    (bbb_btn_debounce_work true 100 101 (bbb_btn_probe true 20)).press_count = 0 ∧
    (bbb_btn_debounce_work true 100 101 (bbb_btn_probe true 20)).chardev.has_event = true ∧
    cstrContent (bbb_btn_debounce_work true 100 101 (bbb_btn_probe true 20)).chardev.buffer
      = strBytes "button released: count=0 time=101\n" := by
  refine ⟨rfl, rfl, rfl, rfl, ?_⟩
  rfl

/-- Claim C2 (amended): `has_event` is cleared exactly when the take from
the mailbox succeeds.  An externally interrupted wait returns -ERESTARTSYS
with the mailbox (flag and message) unchanged, and a wait that finds no
event returns -EAGAIN with the mailbox unchanged, so on those failing paths
the event remains available for the next attempt.  However, when
`copy_to_user` fails after a successful take, the read returns -EFAULT with
`has_event` already cleared, so that failing path loses the event. -/
theorem C2_clear_only_on_successful_take (cf : Bool) (count : Nat) (st : ChardevState) :
    bbb_btn_chardev_read true cf count st = (.restartSys, st) ∧
    (st.has_event = false → bbb_btn_chardev_read false cf count st = (.again, st)) ∧
    (st.has_event = true →
      bbb_btn_chardev_read false false count st
        = (.ok ((readLocalBuf st).take (min count (readLen st))) (min count (readLen st)),
           { st with has_event := false })) ∧
    (st.has_event = true →
      bbb_btn_chardev_read false true count st = (.fault, { st with has_event := false })) := by
  refine ⟨rfl, ?_, ?_, ?_⟩
  · intro h
    simp [bbb_btn_chardev_read, h]
  · intro h
    simpa using read_spec false count st h
  · intro h
    simpa using read_spec true count st h

/-- Claim C2 counterexample: with an unread event pending, a read whose
`copy_to_user` fails returns -EFAULT, yet `has_event` is already false
afterwards — a failing return path on which the event does not remain
available, contradicting the claim as stated. -/
theorem C2_counterexample_efault_drops_event :
    pushedHi.has_event = true ∧
    (bbb_btn_chardev_read false true 10 pushedHi).1 = .fault ∧
    (bbb_btn_chardev_read false true 10 pushedHi).2.has_event = false := by
  refine ⟨rfl, rfl, rfl⟩

/-- Claim C2 witness: on a concrete mailbox holding "hi", a successful
read delivers the message and clears `has_event`. -/
theorem C2_witness :
    (bbb_btn_chardev_read false false 10 pushedHi).1 = .ok (strBytes "hi") 2 ∧
    (bbb_btn_chardev_read false false 10 pushedHi).2.has_event = false := by
  have h := (C2_clear_only_on_successful_take false 10 pushedHi).2.2.1 rfl
  rw [h]
  exact ⟨rfl, rfl⟩


lemma push_buffer_take_readLen (msg : List Nat) (st : ChardevState) :
    (bbb_chardev_push_event msg st).buffer.take (min (BUF_SIZE - 1) msg.length)
      = msg.take (BUF_SIZE - 1) := by
  rw [push_buffer_eq]
  have hl : (msg.take (BUF_SIZE - 1)).length = min (BUF_SIZE - 1) msg.length := by
    simp [List.length_take]
  rw [← hl, List.take_left]

/-- Claim C3: publishing two messages with no successful take in between
leaves exactly one readable event whose message is the second one: after
the two publishes `has_event` is true, a single successful read delivers
the second message (truncated to the buffer bound) and clears `has_event`,
and a further read attempt finds no event. -/
theorem C3_second_publish_wins (m1 m2 : List Nat) (st : ChardevState) (count : Nat)
    (h0 : ∀ b ∈ m2, b ≠ 0) (hc : min (BUF_SIZE - 1) m2.length ≤ count) :
    (bbb_chardev_push_event m2 (bbb_chardev_push_event m1 st)).has_event = true ∧
    bbb_btn_chardev_read false false count
        (bbb_chardev_push_event m2 (bbb_chardev_push_event m1 st))
      = (.ok (m2.take (BUF_SIZE - 1)) (min (BUF_SIZE - 1) m2.length),
         { bbb_chardev_push_event m2 (bbb_chardev_push_event m1 st) with has_event := false }) ∧
    (bbb_btn_chardev_read false false count
        { bbb_chardev_push_event m2 (bbb_chardev_push_event m1 st) with has_event := false }).1
      = .again := by
  set st2 := bbb_chardev_push_event m2 (bbb_chardev_push_event m1 st) with hst2
  have hev : st2.has_event = true := rfl
  have hlen : readLen st2 = min (BUF_SIZE - 1) m2.length := readLen_push m2 _ h0
  refine ⟨hev, ?_, ?_⟩
  · rw [read_spec false count st2 hev]
    simp only [if_false, Bool.false_eq_true]
    have hmin : min count (readLen st2) = readLen st2 :=
      Nat.min_eq_right (by rw [hlen]; exact hc)
    rw [hmin, readLocalBuf_take st2 (readLen st2) le_rfl, hlen]
    rw [hst2, push_buffer_take_readLen m2 _]
  · simp [bbb_btn_chardev_read]

/-- Claim C3 witness: after publishing "aaaa" then "hi", one read returns
exactly "hi" (2 bytes) and clears the unread flag. -/
theorem C3_witness :
    bbb_btn_chardev_read false false 300
        (bbb_chardev_push_event (strBytes "hi")
          (bbb_chardev_push_event (strBytes "aaaa") initChardev))
      = (.ok (strBytes "hi") 2,
         { bbb_chardev_push_event (strBytes "hi")
             (bbb_chardev_push_event (strBytes "aaaa") initChardev) with has_event := false }) := by
  have h := (C3_second_publish_wins (strBytes "aaaa") (strBytes "hi") initChardev 300
      (by decide) (by decide)).2.1
  rw [h]
  rfl


/-- Claim C4: for a successful blocking read with a pending message of
length `readLen st` and a requested byte count `count`, the read returns
the available length when `count` is at least the message length, and
returns `count` bytes of the message when `count` is smaller; in both
cases the returned value equals the number of bytes delivered, and the
unread flag is cleared. -/
theorem C4_read_length_contract (count : Nat) (st : ChardevState)
    (h : st.has_event = true) :
    (bbb_btn_chardev_read false false count st).2 = { st with has_event := false } ∧
    (readLen st ≤ count →
      (bbb_btn_chardev_read false false count st).1
        = .ok (st.buffer.take (readLen st)) (readLen st) ∧
      (st.buffer.take (readLen st)).length = readLen st) ∧
    (count < readLen st →
      (bbb_btn_chardev_read false false count st).1
        = .ok (st.buffer.take count) count ∧
      (st.buffer.take count).length = count) := by
  have hle := readLen_le_length st
  rw [read_spec false count st h]
  refine ⟨rfl, ?_, ?_⟩
  · intro hc
    have hmin : min count (readLen st) = readLen st := Nat.min_eq_right hc
    simp only [if_false, Bool.false_eq_true, hmin]
    rw [readLocalBuf_take st (readLen st) le_rfl]
    refine ⟨rfl, ?_⟩
    simp [List.length_take]
    omega
  · intro hc
    have hmin : min count (readLen st) = count := Nat.min_eq_left (Nat.le_of_lt hc)
    simp only [if_false, Bool.false_eq_true, hmin]
    rw [readLocalBuf_take st count (Nat.le_of_lt hc)]
    refine ⟨rfl, ?_⟩
    simp [List.length_take]
    omega

/-- Claim C4 witness: on a mailbox holding "hi" (length 2), a read of 300
bytes returns the 2 available bytes, and a read of 1 byte returns the
message truncated to 1 byte. -/
theorem C4_witness :
    (bbb_btn_chardev_read false false 300 pushedHi).1 = .ok (strBytes "hi") 2 ∧
    (bbb_btn_chardev_read false false 1 pushedHi).1 = .ok (strBytes "h") 1 := by
  have h1 := ((C4_read_length_contract 300 pushedHi rfl).2.1 (by decide)).1
  have h2 := ((C4_read_length_contract 1 pushedHi rfl).2.2 (by decide)).1
  constructor
  · rw [h1]; rfl
  · rw [h2]; rfl

/-- Claim C5 (code evaluated at the failing input): the claim says that
after teardown no consumer blocked in the read wait remains blocked.  A
consumer is blocked in `wait_event_interruptible(wait, has_event)` exactly
when `has_event` is false; the `wake_up_interruptible` issued by
`bbb_chardev_unregister` makes the waiter re-check that condition, and with
`has_event` still false (and no signal pending) the waiter goes back to
sleep: it stays blocked.  The third conjunct shows the same wake does
release a waiter whenever the condition holds, so the failure is the
missing condition change at teardown, not the wake machinery. -/
theorem C5_teardown_wake_leaves_reader_blocked :
    initChardev.has_event = false ∧
    bbb_chardev_unregister false initChardev WaiterState.blocked = WaiterState.blocked ∧
    wakeWaiter true false WaiterState.blocked = WaiterState.returnedOk := by
  exact ⟨rfl, rfl, rfl⟩

/-- Claim C6: a settle pass whose read level differs from the last
accepted level updates `last_state` to the new level, increments the
confirmed event counter `press_count` by one, records the event timestamp
in `last_event_ns`, and emits exactly one key-state report with
`pressed = NOT level` followed by exactly one sync call. -/
theorem C6_changed_pass_effects (lvl : Bool) (now nowMsg : Nat) (b : BtnState)
    (h : lvl ≠ b.last_state) :
    (bbb_btn_debounce_work lvl now nowMsg b).last_state = lvl ∧
    (bbb_btn_debounce_work lvl now nowMsg b).press_count = b.press_count + 1 ∧
    (bbb_btn_debounce_work lvl now nowMsg b).last_event_ns = now ∧
    (bbb_btn_debounce_work lvl now nowMsg b).inputTrace
      = b.inputTrace ++ [InputCall.reportKey (!lvl), InputCall.sync] := by
  refine ⟨?_, ?_, ?_, ?_⟩ <;> simp [bbb_btn_debounce_work, h]

/-- Claim C6 witness: a concrete changed settle pass (level false after
an accepted true) performs exactly the four effects. -/
theorem C6_witness :
    (bbb_btn_debounce_work false 7 8 (bbb_btn_probe true 20)).last_state = false ∧
    (bbb_btn_debounce_work false 7 8 (bbb_btn_probe true 20)).press_count
      = (bbb_btn_probe true 20).press_count + 1 ∧
    (bbb_btn_debounce_work false 7 8 (bbb_btn_probe true 20)).last_event_ns = 7 ∧
    (bbb_btn_debounce_work false 7 8 (bbb_btn_probe true 20)).inputTrace
      = (bbb_btn_probe true 20).inputTrace ++ [InputCall.reportKey (!false), InputCall.sync] :=
  C6_changed_pass_effects false 7 8 (bbb_btn_probe true 20) (by decide)


/-- Claim C7: after every publish the 256-byte mailbox buffer is exactly
its declared size and null-terminated within it, with the message content
truncated to at most 255 bytes; every read leaves the buffer unchanged
(hence still well formed) and the reader's local copy never exceeds its
own 256-byte bound. -/
theorem C7_buffer_bounded_and_terminated (msg : List Nat) (i c : Bool) (n : Nat)
    (st : ChardevState) (hmsg : ∀ b ∈ msg, b ≠ 0) (hwf : bufferWF st.buffer) :
    bufferWF (bbb_chardev_push_event msg st).buffer ∧
    cstrContent (bbb_chardev_push_event msg st).buffer = msg.take (BUF_SIZE - 1) ∧
    bufferWF ((bbb_btn_chardev_read i c n st).2).buffer ∧
    (readLocalBuf st).length ≤ BUF_SIZE := by
  refine ⟨⟨?_, ?_⟩, cstrContent_push msg st hmsg, ?_, ?_⟩
  · rw [push_buffer_eq]
    simp [List.length_take, BUF_SIZE]
    omega
  · rw [push_buffer_eq]
    refine List.mem_append.2 (Or.inr ?_)
    exact List.mem_replicate.2 ⟨Nat.succ_ne_zero _, rfl⟩
  · rw [bufferWF, read_buffer_unchanged]
    exact hwf
  · have h1 := readLocalBuf_length st
    have h2 := readLen_le_255 st
    simp only [BUF_SIZE] at *
    omega


set_option maxRecDepth 4096 in
/-- Claim C7 witness: the invariant evaluated after a concrete publish
and a concrete read on the freshly registered mailbox. -/
theorem C7_witness :
    bufferWF (bbb_chardev_push_event (strBytes "hi") initChardev).buffer ∧
    cstrContent (bbb_chardev_push_event (strBytes "hi") initChardev).buffer
      = (strBytes "hi").take (BUF_SIZE - 1) ∧
    bufferWF ((bbb_btn_chardev_read false false 4 initChardev).2).buffer ∧
    (readLocalBuf initChardev).length ≤ BUF_SIZE :=
  C7_buffer_bounded_and_terminated (strBytes "hi") false false 4 initChardev
    (by decide) (by constructor <;> decide)

/-- Claim C8: every raw-transition intake cancels any queued settle work
and schedules exactly one new pass one quiet interval (`debounce_ms`) from
now, so after an intake exactly one settle pass is queued, and a second
intake while one is armed reschedules it rather than stacking a second
pending pass. -/
theorem C8_irq_single_settle_timer (now now2 : Nat) (b : BtnState) :
    (bbb_btn_irq now b).pending = [now + b.debounce_ms] ∧
    (bbb_btn_irq now2 (bbb_btn_irq now b)).pending = [now2 + b.debounce_ms] ∧
    (bbb_btn_irq now2 (bbb_btn_irq now b)).pending.length = 1 := by
  refine ⟨?_, ?_, ?_⟩ <;>
    simp [bbb_btn_irq, cancel_delayed_work, schedule_delayed_work]

def counters_le (a b : BtnState) : Prop :=
  a.total_irqs ≤ b.total_irqs ∧ a.work_executions ≤ b.work_executions ∧
  a.press_count ≤ b.press_count ∧ a.last_event_ns ≤ b.last_event_ns

/-- Claim C9: each of the four counters (`total_irqs`, `work_executions`,
`press_count`, `last_event_ns`) is monotone non-decreasing under every
operation of the driver: IRQ intake, settle pass (given that the clock read
inside it is not earlier than the stored timestamp), consumer read, and
event publish. -/
theorem C9_counters_monotone (now nowMsg n : Nat) (lvl i c : Bool) (msg : List Nat)
    (b : BtnState) (hclock : b.last_event_ns ≤ now) :
    counters_le b (bbb_btn_irq now b) ∧
    counters_le b (bbb_btn_debounce_work lvl now nowMsg b) ∧
    counters_le b (bbb_btn_chardev_read_btn i c n b).2 ∧
    counters_le b (bbb_chardev_push_event_btn msg b) := by
  refine ⟨?_, ?_, ?_, ?_⟩
  · simp [counters_le, bbb_btn_irq, cancel_delayed_work, schedule_delayed_work]
  · by_cases h : lvl = b.last_state
    · simp [counters_le, bbb_btn_debounce_work, h]
    · simp [counters_le, bbb_btn_debounce_work, h]
      omega
  · simp [counters_le, bbb_btn_chardev_read_btn]
  · simp [counters_le, bbb_chardev_push_event_btn]

/-- Claim C9 witness: the four operations applied to the freshly probed
state each leave every counter no smaller. -/
theorem C9_witness :
    counters_le (bbb_btn_probe true 20) (bbb_btn_irq 5 (bbb_btn_probe true 20)) ∧
    counters_le (bbb_btn_probe true 20)
      (bbb_btn_debounce_work false 5 6 (bbb_btn_probe true 20)) ∧
    counters_le (bbb_btn_probe true 20)
      (bbb_btn_chardev_read_btn false false 3 (bbb_btn_probe true 20)).2 ∧
    counters_le (bbb_btn_probe true 20)
      (bbb_chardev_push_event_btn (strBytes "hi") (bbb_btn_probe true 20)) :=
  C9_counters_monotone 5 6 3 false false false (strBytes "hi") (bbb_btn_probe true 20)
    (by decide)

/-- Claim C10: a settle pass increments `work_executions` once
unconditionally and a second time inside the state-changed branch, so a
changed pass adds exactly 2 (an unchanged one exactly 1), and after any
run of passes `work_executions` equals the number of passes plus the
number of passes that confirmed a level change. -/
theorem C10_work_executions_count (lvl : Bool) (n1 n2 : Nat) (b : BtnState)
    (passes : List (Bool × Nat × Nat)) :
    (bbb_btn_debounce_work lvl n1 n2 b).work_executions
      = b.work_executions + (if lvl = b.last_state then 1 else 2) ∧
    (runPasses passes b).work_executions
      = b.work_executions + passes.length + countChanges passes b.last_state :=
  ⟨debounce_work_we lvl n1 n2 b, runPasses_we passes b⟩

end BbbButton
